import Mathlib

/-!
# Load-generating HTTP demo server (`main.go`)

A shallow embedding of the five request handlers of `main.go` and of the
route table built by `main`.  Every call that leaves the Go program (clock,
log, file system, network, response writer, profiler scope) is recorded as an
`Event` in the `trace` of a `World`; the results of the fallible calls are
supplied by an environment record, so that every handler is a function of the
environment and the world it starts in.
-/

namespace PyroDemo

/-! ## Data model -/

/-- Kinds of error an I/O call may report. -/
inductive ErrKind where
  | eof
  | timeout
  | other
deriving DecidableEq, Repr

/-- Result of one `Read` call: the byte count `n` and the error, if any. -/
structure ReadResult where
  n : Nat
  err : Option ErrKind
deriving DecidableEq, Repr

/-- Calls of the program that are visible outside it, in program order. -/
inductive Event where
  /-- Call `pyroscope.TagWrapper` enters the labelled scope. -/
  | tagStart (key value : String)
  /-- Call `pyroscope.TagWrapper` leaves the labelled scope. -/
  | tagEnd
  /-- Call `log.Println(msg)`. -/
  | log (msg : String)
  /-- One call of `time.Now()`. -/
  | clockNow
  /-- Call `time.Sleep(ms * time.Millisecond)`. -/
  | sleep (ms : Nat)
  /-- Allocation `make([]byte, n)`. -/
  | alloc (n : Nat)
  /-- The assignment `b[i] = v`. -/
  | store (i v : Nat)
  /-- Call `ioutil.TempFile("", "pyrotest")` and whether it succeeded. -/
  | tempFile (ok : Bool)
  /-- Call `f.Write(data)` with `len(data) = n` and whether it succeeded. -/
  | fileWrite (n : Nat) (ok : Bool)
  /-- Call `f.Seek(offset, whence)` and whether it succeeded. -/
  | fileSeek (offset whence : Nat) (ok : Bool)
  /-- Call `f.Read(data)` and what it returned. -/
  | fileRead (r : ReadResult)
  /-- Call `f.Close()`. -/
  | fileClose
  /-- Call `os.Remove(f.Name())`. -/
  | fileRemove
  /-- Call `net.DialTimeout(network, addr, ms * time.Millisecond)` and whether it succeeded. -/
  | dial (network addr : String) (ms : Nat) (ok : Bool)
  /-- Call `conn.Write([]byte(req))` and whether it succeeded. -/
  | connWrite (req : String) (ok : Bool)
  /-- Call `conn.SetReadDeadline(t.Add(ms * time.Millisecond))`, `t` the clock value just sampled. -/
  | setReadDeadline (ms : Nat)
  /-- Call `conn.Read(buf)` with `len(buf) = n` and the error it returned, if any. -/
  | connRead (n : Nat) (err : Option ErrKind)
  /-- Call `conn.Close()`. -/
  | connClose
  /-- Call `http.Error(w, msg, code)`. -/
  | httpError (msg : String) (code : Nat)
  /-- Text written to the response body through `fmt.Fprintln` or `fmt.Fprintf`. -/
  | respWrite (text : String)
deriving DecidableEq, Repr

/-- The `http.ResponseWriter` of one request: the status line once it has been
sent, and the body written so far. -/
structure ResponseWriter where
  status : Option Nat
  body : String
deriving DecidableEq, Repr

/-- The response writer the server hands to a handler: nothing sent yet. -/
def ResponseWriter.fresh : ResponseWriter := ⟨none, ""⟩

/-- Call `w.WriteHeader(code)`: the first status sent is the one that counts. -/
def ResponseWriter.writeHeader (r : ResponseWriter) (code : Nat) : ResponseWriter :=
  match r.status with
  | none => { r with status := some code }
  | some _ => r

/-- Call `w.Write(text)`: sends status 200 first when no status was sent yet. -/
def ResponseWriter.write (r : ResponseWriter) (text : String) : ResponseWriter :=
  let r := r.writeHeader 200
  { r with body := r.body ++ text }

/-- Process state as far as the handlers see it: the trace of outside calls,
the response writer of the request being served, and the package variable
`memleak` (a slice of byte slices; a byte is a natural number below 256). -/
structure World where
  trace : List Event
  resp : ResponseWriter
  memleak : List (List Nat)

/-- State in which the server starts serving a request: a fresh response writer,
an empty trace, and the retention list as earlier requests left it. -/
def World.request (memleak : List (List Nat)) : World :=
  { trace := [], resp := ResponseWriter.fresh, memleak := memleak }

/-- Record one outside call. -/
def World.emit (w : World) (e : Event) : World :=
  { w with trace := w.trace ++ [e] }

/-- Record a sequence of outside calls. -/
def World.emitAll (w : World) (es : List Event) : World :=
  { w with trace := w.trace ++ es }

/-- Call `fmt.Fprintf(w, ...)` once the arguments are rendered to `text`. -/
def World.fprint (w : World) (text : String) : World :=
  { w with trace := w.trace ++ [Event.respWrite text], resp := w.resp.write text }

/-- Call `fmt.Fprintln(w, text)`: the text followed by a newline. -/
def World.fprintln (w : World) (text : String) : World :=
  w.fprint (text ++ "\n")

/-- Call `http.Error(w, msg, code)`: sends the status, then the message as a line. -/
def World.httpError (w : World) (msg : String) (code : Nat) : World :=
  { w with trace := w.trace ++ [Event.httpError msg code],
           resp := (w.resp.writeHeader code).write (msg ++ "\n") }

/-- Call `pyroscope.TagWrapper(ctx, pyroscope.Labels(key, value), body)`: runs `body`
inside the labelled scope. -/
def tagWrapper (key value : String) (body : World → Option World) (w : World) :
    Option World :=
  (body (w.emit (Event.tagStart key value))).map fun w1 => w1.emit Event.tagEnd

/-- Run the deferred calls of a function that returns; `defers` is the defer
stack, the call deferred last at its head, so it runs first. -/
def runDefers (defers : List Event) (w : World) : World :=
  defers.foldl World.emit w

/-! ## `work` and the CPU handlers -/

/-- The loop of `work`: `for i := 0; i < n; i++ { _ = time.Now().UnixNano() }`,
entered with the counter at `i`.  Since `i < n` when `i++` runs, the counter
never leaves the range of `int`. -/
def workLoop (n : Int) (i : Int) (w : World) : World :=
  if i < n then workLoop n (i + 1) (w.emit Event.clockNow) else w
termination_by (n - i).toNat
decreasing_by omega

/-- Go function `work(n int)`. -/
def work (n : Int) (w : World) : World :=
  workLoop n 0 w

/-- Go function `slowHandler`. -/
def slowHandler : World → Option World :=
  tagWrapper "handler" "slow" fun w =>
    let w := w.emit (Event.log "Handling slow request...")
    let w := work 20000000 w
    some (w.fprintln "Slow request handled!")

/-- Go function `fastHandler`. -/
def fastHandler : World → Option World :=
  tagWrapper "handler" "fast" fun w =>
    let w := w.emit (Event.log "Handling fast request...")
    let w := work 5000000 w
    some (w.fprintln "Fast request handled!")

/-! ## The memory handler -/

/-- The assignment `memleak = append(memleak, b)`. -/
def World.retain (w : World) (b : List Nat) : World :=
  { w with memleak := w.memleak ++ [b] }

/-- Allocation `make([]byte, n)`: a slice of `n` zero bytes. -/
def makeBytes (n : Nat) : List Nat :=
  List.replicate n 0

/-- The conversion `byte(i)` of a non-negative `int`: the low eight bits. -/
def toByte (i : Nat) : Nat :=
  i % 256

/-- The assignment `b[i] = v`; an index out of range panics (`none`). -/
def setByte (b : List Nat) (i v : Nat) : Option (List Nat) :=
  if i < b.length then some (b.set i v) else none

/-- The loop of `memoryHandler`:
`for i := 0; i < len(b); i += 4096 { b[i] = byte(i) }`, entered with the counter
at `i`.  The counter stays below `len(b) + 4096`, far inside the range of `int`
for the buffer this program allocates. -/
def touchLoop (b : List Nat) (i : Nat) (w : World) : Option (List Nat × World) :=
  if i < b.length then
    match h : setByte b i (toByte i) with
    | none => none
    | some b1 => touchLoop b1 (i + 4096) (w.emit (Event.store i (toByte i)))
  else some (b, w)
termination_by b.length - i
decreasing_by
  have hlen : b1.length = b.length := by
    by_cases hi : i < b.length
    · rw [setByte, if_pos hi] at h
      cases h
      simp
    · rw [setByte, if_neg hi] at h
      cases h
  omega

/-- Go function `memoryHandler`.  The allocation itself is taken to succeed: when it
does not, the Go runtime ends the whole process. -/
def memoryHandler : World → Option World :=
  tagWrapper "handler" "memory" fun w =>
    let w := w.emit (Event.log "Handling memory leak request...")
    let w := w.emit (Event.alloc (100 * 1024 * 1024))
    let b := makeBytes (100 * 1024 * 1024)
    match touchLoop b 0 w with
    | none => none
    | some (b, w) =>
      let w := w.retain b
      some (w.fprintln "Memory leak allocated 100MB!")

/-- The events of the page-touch loop over a buffer of `4096 * m` bytes, from
page `k` on. -/
def touchEvents (k m : Nat) : List Event :=
  (List.range' k (m - k)).map fun j => Event.store (4096 * j) (toByte (4096 * j))

/-! ## The disk handler -/

/-- What the operating system answers to the calls of `diskHandler`. -/
structure DiskEnv where
  /-- Whether `ioutil.TempFile` succeeds. -/
  createOk : Bool
  /-- Whether the write of loop index `i` succeeds. -/
  writeOk : Nat → Bool
  /-- Whether `f.Seek(0, 0)` succeeds. -/
  seekOk : Bool
  /-- What the `j`-th call of `f.Read` returns, counting from 0. -/
  reads : Nat → ReadResult
  /-- The rendering (`%v`) of `time.Since(start)`. -/
  elapsed : String

/-- A value of Go's 64-bit `int` after an arithmetic operation: two's complement
wrap-around. -/
def wrapInt (x : Int) : Int :=
  (x + 2 ^ 63) % 2 ^ 64 - 2 ^ 63

/-- The write loop of `diskHandler`:
`for i := 0; i < 100; i++ { if _, err := f.Write(data); err != nil { ...; return } }`,
entered with the counter at `i` and `len(data) = len`.  The flag is `false` when
the loop left the handler through the error branch. -/
def writeLoop (env : DiskEnv) (len : Nat) (i : Nat) (w : World) : Bool × World :=
  if i < 100 then
    let w := w.emit (Event.fileWrite len (env.writeOk i))
    if env.writeOk i then writeLoop env len (i + 1) w
    else (false, w.httpError "Disk write error" 500)
  else (true, w)
termination_by 100 - i

/-- The read loop of `diskHandler`, `for { n, err := f.Read(data); ... }`, about
to make the `j`-th read with `total` bytes counted so far.  The loop has no
bound of its own: `fuel` limits the number of iterations, and `none` means the
loop was still running when the fuel ran out. -/
def readLoop (env : DiskEnv) : Nat → Nat → Int → World → Option (Int × World)
  | 0, _, _, _ => none
  | fuel + 1, j, total, w =>
    let r := env.reads j
    let w := w.emit (Event.fileRead r)
    let total := if r.n > 0 then wrapInt (total + r.n) else total
    let w := if r.n > 0 then w.emit (Event.sleep 10) else w
    if r.err.isSome then some (total, w) else readLoop env fuel (j + 1) total w

/-- The success line of `diskHandler`: `"Disk read %d bytes in %v!\n"`. -/
def diskLine (total : Int) (elapsed : String) : String :=
  "Disk read " ++ toString total ++ " bytes in " ++ elapsed ++ "!\n"

/-- Go function `diskHandler`. -/
def diskHandler (env : DiskEnv) (fuel : Nat) : World → Option World :=
  tagWrapper "handler" "disk" fun w =>
    let w := w.emit (Event.log "Handling slow disk request...")
    let w := w.emit (Event.tempFile env.createOk)
    if env.createOk then
      -- defer os.Remove(f.Name()); defer f.Close()
      let defers := [Event.fileRemove]
      let defers := Event.fileClose :: defers
      let w := w.emit (Event.alloc (1024 * 1024))
      match writeLoop env (1024 * 1024) 0 w with
      | (false, w) => some (runDefers defers w)
      | (true, w) =>
        let w := w.emit (Event.fileSeek 0 0 env.seekOk)
        if env.seekOk then
          let w := w.emit Event.clockNow
          match readLoop env fuel 0 0 w with
          | none => none
          | some (total, w) =>
            let w := w.emit Event.clockNow
            let w := w.fprint (diskLine total env.elapsed)
            some (runDefers defers w)
        else some (runDefers defers (w.httpError "Seek error" 500))
    else some (w.httpError "Failed to create temp file" 500)

/-! ## The network handler -/

/-- What the network answers to the calls of `networkHandler`. -/
structure NetEnv where
  /-- Whether `net.DialTimeout` succeeds. -/
  dialOk : Bool
  /-- Whether `conn.Write` succeeds. -/
  writeOk : Bool
  /-- The error of the `j`-th call of `conn.Read`, counting from 0; `none` when
  the read succeeded. -/
  reads : Nat → Option ErrKind
  /-- The rendering (`%v`) of `time.Since(start)`. -/
  elapsed : String

/-- The request text `networkHandler` sends. -/
def netRequest : String :=
  "GET / HTTP/1.1\r\nHost: example.org\r\nConnection: close\r\n\r\n"

/-- The read loop of `networkHandler`,
`for { conn.SetReadDeadline(...); _, err := conn.Read(buf); ... }`, about to
make the `j`-th read.  `fuel` limits the number of iterations, and `none` means
the loop was still running when the fuel ran out. -/
def netReadLoop (env : NetEnv) : Nat → Nat → World → Option World
  | 0, _, _ => none
  | fuel + 1, j, w =>
    let w := w.emit Event.clockNow
    let w := w.emit (Event.setReadDeadline 300)
    let w := w.emit (Event.connRead 4096 (env.reads j))
    if (env.reads j).isSome then some w
    else netReadLoop env fuel (j + 1) (w.emit (Event.sleep 200))

/-- The success line of `networkHandler`:
`"Network call to example.org finished in %v\n"`. -/
def netLine (elapsed : String) : String :=
  "Network call to example.org finished in " ++ elapsed ++ "\n"

/-- Go function `networkHandler`. -/
def networkHandler (env : NetEnv) (fuel : Nat) : World → Option World :=
  tagWrapper "handler" "network" fun w =>
    let w := w.emit (Event.log "Handling slow network request...")
    let w := w.emit Event.clockNow
    let w := w.emit (Event.dial "tcp" "example.org:80" 5000 env.dialOk)
    if env.dialOk then
      -- defer conn.Close()
      let defers := [Event.connClose]
      let w := w.emit (Event.connWrite netRequest env.writeOk)
      let w := w.emit (Event.alloc 4096)
      match netReadLoop env fuel 0 w with
      | none => none
      | some w =>
        let w := w.emit Event.clockNow
        let w := w.fprint (netLine env.elapsed)
        some (runDefers defers w)
    else some (w.httpError "Network dial error" 500)

/-! ## The route table of `main` -/

/-- The five handler functions of the program. -/
inductive HandlerId where
  | slow
  | fast
  | memory
  | disk
  | network
deriving DecidableEq, Repr

/-- The patterns registered on the default `ServeMux`, in registration order. -/
abbrev Mux := List (String × HandlerId)

/-- Call `http.HandleFunc(pattern, handler)`: registering a pattern twice panics
(`none`). -/
def handleFunc (mux : Mux) (pattern : String) (h : HandlerId) : Option Mux :=
  if mux.any (fun p => p.1 == pattern) then none else some (mux ++ [(pattern, h)])

/-- The five `http.HandleFunc` calls of `main`, in source order. -/
def registerRoutes : Option Mux := do
  let mux ← handleFunc [] "/slow" HandlerId.slow
  let mux ← handleFunc mux "/fast" HandlerId.fast
  let mux ← handleFunc mux "/memory" HandlerId.memory
  let mux ← handleFunc mux "/disk" HandlerId.disk
  handleFunc mux "/network" HandlerId.network

/-- The route table `main` builds. -/
def routeTable : Mux :=
  [("/slow", HandlerId.slow), ("/fast", HandlerId.fast), ("/memory", HandlerId.memory),
    ("/disk", HandlerId.disk), ("/network", HandlerId.network)]

/-- Handler the mux selects for a request path: the patterns of this program
have no trailing slash, so each matches its own path only. -/
def route (mux : Mux) (path : String) : Option HandlerId :=
  (mux.find? fun p => p.1 == path).map Prod.snd

/-- What the outside world answers during one request. -/
structure Env where
  disk : DiskEnv
  net : NetEnv

/-- Run the handler function a route names. -/
def serve (h : HandlerId) (env : Env) (fuel : Nat) (w : World) : Option World :=
  match h with
  | HandlerId.slow => slowHandler w
  | HandlerId.fast => fastHandler w
  | HandlerId.memory => memoryHandler w
  | HandlerId.disk => diskHandler env.disk fuel w
  | HandlerId.network => networkHandler env.net fuel w

/-- The retention list after `n` requests served by `handler`, one after the
other, each with a response writer of its own; `none` when a call did not
return. -/
def sequentialCalls (handler : World → Option World) :
    Nat → List (List Nat) → Option (List (List Nat))
  | 0, l => some l
  | n + 1, l =>
    match handler (World.request l) with
    | none => none
    | some w => sequentialCalls handler n w.memleak

/-- The retention list after `n` calls of `memoryHandler`, one after the other. -/
def memoryCalls (n : Nat) (l : List (List Nat)) : Option (List (List Nat)) :=
  sequentialCalls memoryHandler n l

/-- Bytes held by a retention list. -/
def retainedBytes (l : List (List Nat)) : Nat :=
  (l.map List.length).sum

/-! ## Expected traces -/

/-- Events of one iteration of the disk read loop: the read, and the 10 ms sleep
when it returned bytes. -/
def readStep (env : DiskEnv) (j : Nat) : List Event :=
  Event.fileRead (env.reads j) :: (if (env.reads j).n > 0 then [Event.sleep 10] else [])

/-- Events of `d` iterations of the disk read loop, from read `j` on. -/
def readEvents (env : DiskEnv) : Nat → Nat → List Event
  | _, 0 => []
  | j, d + 1 => readStep env j ++ readEvents env (j + 1) d

/-- Value of `total` after `d` iterations of the disk read loop, from read `j`
on. -/
def readTotal (env : DiskEnv) : Int → Nat → Nat → Int
  | total, _, 0 => total
  | total, j, d + 1 =>
    readTotal env (if (env.reads j).n > 0 then wrapInt (total + (env.reads j).n) else total)
      (j + 1) d

/-- Events of `diskHandler` up to and including `n` successful writes. -/
def diskStart (n : Nat) : List Event :=
  [Event.tagStart "handler" "disk", Event.log "Handling slow disk request...",
    Event.tempFile true, Event.alloc (1024 * 1024)]
    ++ List.replicate n (Event.fileWrite (1024 * 1024) true)

/-- Events with which `diskHandler` returns once the temporary file exists. -/
def diskEnd : List Event :=
  [Event.fileClose, Event.fileRemove, Event.tagEnd]

/-- Events of one iteration of the network read loop, the sleep left out. -/
def netStep (env : NetEnv) (j : Nat) : List Event :=
  [Event.clockNow, Event.setReadDeadline 300, Event.connRead 4096 (env.reads j)]

/-- Events of `k` iterations of the network read loop whose read succeeded,
from read `j` on. -/
def netEvents (env : NetEnv) : Nat → Nat → List Event
  | _, 0 => []
  | j, k + 1 => netStep env j ++ [Event.sleep 200] ++ netEvents env (j + 1) k

/-- Events of `networkHandler` from its start to the allocation of the read
buffer, on a connection that was opened. -/
def netStart (env : NetEnv) : List Event :=
  [Event.tagStart "handler" "network", Event.log "Handling slow network request...",
    Event.clockNow, Event.dial "tcp" "example.org:80" 5000 true,
    Event.connWrite netRequest env.writeOk, Event.alloc 4096]

/-! ## Calls of the memory handler that overlap -/

/-- Where a call of `memoryHandler` stands with respect to the package variable
`memleak`.  The statement `memleak = append(memleak, b)` reads the variable and
assigns it afterwards, and the program has no lock or channel around it, so
another call may run between the read and the assignment. -/
inductive CallState where
  /-- The buffer `b` is made and touched; `memleak` is not read yet. -/
  | ready (b : List Nat)
  /-- The call has read `memleak` as `seen` and is about to assign. -/
  | loaded (seen : List (List Nat)) (b : List Nat)
  /-- The call has assigned `memleak`. -/
  | done

/-- Whether the call has assigned `memleak`. -/
def CallState.isDone : CallState → Bool
  | CallState.done => true
  | _ => false

/-- The package variable `memleak` together with the calls of `memoryHandler`
that the server runs at the same time, one goroutine each. -/
structure Shared where
  memleak : List (List Nat)
  calls : List CallState

/-- Call `t` makes its next access to `memleak`: the read, or the assignment of
what it read with its own buffer appended.  A call that is done does nothing. -/
def Shared.step (s : Shared) (t : Nat) : Shared :=
  match s.calls[t]? with
  | some (CallState.ready b) =>
    { s with calls := s.calls.set t (CallState.loaded s.memleak b) }
  | some (CallState.loaded seen b) =>
    { memleak := seen ++ [b], calls := s.calls.set t CallState.done }
  | _ => s

/-- Run the calls in the order the schedule names them, one access each time. -/
def Shared.run (s : Shared) (schedule : List Nat) : Shared :=
  schedule.foldl Shared.step s

/-- The retention list `l` and `n` calls of `memoryHandler` that have each made
and touched their buffer, which is all zero after the page-touch loop. -/
def Shared.start (l : List (List Nat)) (n : Nat) : Shared :=
  { memleak := l, calls := List.replicate n (CallState.ready (makeBytes (100 * 1024 * 1024))) }

/-- Number of calls that have completed their append. -/
def Shared.completed (s : Shared) : Nat :=
  s.calls.countP CallState.isDone

/-- The schedule that runs the calls `ts` one after the other: each call reads
`memleak` and assigns it before the next call starts. -/
def serialSchedule (ts : List Nat) : List Nat :=
  ts.flatMap fun t => [t, t]

/-- A disk on which nothing fails: every read returns a full chunk of
1,048,576 bytes until the 100 chunks written are used up, then end of file. -/
def steadyDisk : DiskEnv :=
  { createOk := true
    writeOk := fun _ => true
    seekOk := true
    reads := fun j => if j < 100 then ⟨1048576, none⟩ else ⟨0, some ErrKind.eof⟩
    elapsed := "1s" }

/-- A disk on which the write of loop index 3 fails. -/
def fullDisk : DiskEnv :=
  { steadyDisk with writeOk := fun i => i != 3 }

/-- A connection on which the request write fails, two reads succeed and the
third times out. -/
def slowNet : NetEnv :=
  { dialOk := true
    writeOk := false
    reads := fun j => if j < 2 then none else some ErrKind.timeout
    elapsed := "1s" }

/-- Events of one iteration of the network read loop whose read succeeded. -/
def netRound : List Event :=
  [Event.clockNow, Event.setReadDeadline 300, Event.connRead 4096 none, Event.sleep 200]

/-- Whether an event is a call of `conn.Read`. -/
def Event.isConnRead : Event → Bool
  | Event.connRead _ _ => true
  | _ => false

/-- What a client and an observer of the process see of a served request: the
trace of outside calls and the response. -/
def World.view (w : World) : List Event × ResponseWriter :=
  (w.trace, w.resp)

/-- Number of clock samples recorded in a world's trace. -/
def World.samples (w : World) : Nat :=
  w.trace.count Event.clockNow

/-! ## Basic facts about worlds -/

theorem World.emit_eq_emitAll (w : World) (e : Event) : w.emit e = w.emitAll [e] := by
  cases w
  rfl

theorem World.emitAll_emitAll (w : World) (a b : List Event) :
    (w.emitAll a).emitAll b = w.emitAll (a ++ b) := by
  simp [World.emitAll, List.append_assoc]

theorem World.emitAll_nil (w : World) : w.emitAll [] = w := by
  simp [World.emitAll]

theorem workLoop_eq (n : Int) (k : Nat) : ∀ (i : Int) (w : World), (n - i).toNat = k →
    workLoop n i w = w.emitAll (List.replicate k Event.clockNow) := by
  induction k with
  | zero =>
    intro i w h
    rw [workLoop, if_neg (by omega)]
    simp [World.emitAll_nil]
  | succ k ih =>
    intro i w h
    rw [workLoop, if_pos (by omega), ih (i + 1) _ (by omega), World.emit_eq_emitAll,
      World.emitAll_emitAll]
    congr 1

theorem work_eq (n : Int) (w : World) :
    work n w = w.emitAll (List.replicate n.toNat Event.clockNow) := by
  unfold work
  exact workLoop_eq n n.toNat 0 w (by simp)

/-! ## The page-touch loop -/

theorem toByte_page (k : Nat) : toByte (4096 * k) = 0 := by
  unfold toByte
  omega

theorem set_replicate_same (n i : Nat) (a : Nat) :
    (List.replicate n a).set i a = List.replicate n a := by
  apply List.ext_getElem
  · simp
  · intro j h1 h2
    simp [List.getElem_set]

theorem touchLoop_zero (m : Nat) (d : Nat) : ∀ (k : Nat) (w : World), m - k = d →
    touchLoop (List.replicate (4096 * m) 0) (4096 * k) w
      = some (List.replicate (4096 * m) 0, w.emitAll (touchEvents k m)) := by
  induction d with
  | zero =>
    intro k w h
    rw [touchLoop, if_neg (by simp; omega)]
    simp [touchEvents, h, World.emitAll_nil]
  | succ d ih =>
    intro k w h
    have hlt : 4096 * k < (List.replicate (4096 * m) 0).length := by simp; omega
    have hset : setByte (List.replicate (4096 * m) 0) (4096 * k) (toByte (4096 * k))
        = some (List.replicate (4096 * m) 0) := by
      rw [setByte, if_pos hlt, toByte_page, set_replicate_same]
    rw [touchLoop, if_pos hlt]
    split
    · rename_i h1
      rw [hset] at h1
      cases h1
    · rename_i b1 h1
      rw [hset] at h1
      cases h1
      have hk : 4096 * k + 4096 = 4096 * (k + 1) := by ring
      rw [hk, ih (k + 1) _ (by omega), World.emit_eq_emitAll, World.emitAll_emitAll]
      congr 2
      have hm : m - k = (m - (k + 1)) + 1 := by omega
      simp only [touchEvents]
      rw [hm, List.range'_succ]
      simp

/-! ## Projections of the world operations -/

@[simp] theorem World.emitAll_trace (w : World) (es : List Event) :
    (w.emitAll es).trace = w.trace ++ es := rfl

@[simp] theorem World.emitAll_resp (w : World) (es : List Event) :
    (w.emitAll es).resp = w.resp := rfl

@[simp] theorem World.emitAll_memleak (w : World) (es : List Event) :
    (w.emitAll es).memleak = w.memleak := rfl

@[simp] theorem World.httpError_trace (w : World) (msg : String) (code : Nat) :
    (w.httpError msg code).trace = w.trace ++ [Event.httpError msg code] := rfl

@[simp] theorem World.httpError_resp (w : World) (msg : String) (code : Nat) :
    (w.httpError msg code).resp = (w.resp.writeHeader code).write (msg ++ "\n") := rfl

@[simp] theorem World.httpError_memleak (w : World) (msg : String) (code : Nat) :
    (w.httpError msg code).memleak = w.memleak := rfl

@[simp] theorem World.fprint_trace (w : World) (text : String) :
    (w.fprint text).trace = w.trace ++ [Event.respWrite text] := rfl

@[simp] theorem World.fprint_resp (w : World) (text : String) :
    (w.fprint text).resp = w.resp.write text := rfl

@[simp] theorem World.fprint_memleak (w : World) (text : String) :
    (w.fprint text).memleak = w.memleak := rfl

theorem runDefers_eq (ds : List Event) : ∀ w : World, runDefers ds w = w.emitAll ds := by
  induction ds with
  | nil => intro w; simp [runDefers, World.emitAll_nil]
  | cons d ds ih =>
    intro w
    have h := ih (w.emit d)
    unfold runDefers at h ⊢
    rw [List.foldl_cons, h, World.emit_eq_emitAll, World.emitAll_emitAll]
    rfl

theorem ResponseWriter.fresh_error (msg : String) (code : Nat) :
    (ResponseWriter.fresh.writeHeader code).write msg = ⟨some code, msg⟩ := by
  simp [ResponseWriter.fresh, ResponseWriter.writeHeader, ResponseWriter.write]

theorem ResponseWriter.fresh_write (text : String) :
    ResponseWriter.fresh.write text = ⟨some 200, text⟩ := by
  simp [ResponseWriter.fresh, ResponseWriter.writeHeader, ResponseWriter.write]

theorem wrapInt_id (x : Int) (h0 : -(2 ^ 63) ≤ x) (h1 : x < 2 ^ 63) : wrapInt x = x := by
  unfold wrapInt
  omega

/-! ## The loops of the disk handler -/

theorem writeLoop_ok (env : DiskEnv) (len : Nat) (d : Nat) : ∀ (i : Nat) (w : World),
    100 - i = d → (∀ i1, i ≤ i1 → i1 < 100 → env.writeOk i1 = true) →
    writeLoop env len i w
      = (true, w.emitAll (List.replicate d (Event.fileWrite len true))) := by
  induction d with
  | zero =>
    intro i w h _
    rw [writeLoop, if_neg (by omega)]
    simp [World.emitAll_nil]
  | succ d ih =>
    intro i w h hok
    have hi : i < 100 := by omega
    rw [writeLoop, if_pos hi]
    simp only [hok i (le_refl i) hi, if_true]
    rw [ih (i + 1) _ (by omega) (fun i1 h1 h2 => hok i1 (by omega) h2),
      World.emit_eq_emitAll, World.emitAll_emitAll]
    rfl

theorem writeLoop_fail (env : DiskEnv) (len : Nat) (f : Nat) (hf : f < 100)
    (hbad : env.writeOk f = false) (d : Nat) : ∀ (i : Nat) (w : World),
    f - i = d → i ≤ f → (∀ i1, i ≤ i1 → i1 < f → env.writeOk i1 = true) →
    writeLoop env len i w
      = (false, (w.emitAll (List.replicate d (Event.fileWrite len true)
          ++ [Event.fileWrite len false])).httpError "Disk write error" 500) := by
  induction d with
  | zero =>
    intro i w h hle _
    have hif : i = f := by omega
    subst hif
    rw [writeLoop, if_pos hf]
    simp only [hbad, Bool.false_eq_true, if_false]
    rfl
  | succ d ih =>
    intro i w h hle hok
    have hi : i < 100 := by omega
    rw [writeLoop, if_pos hi]
    simp only [hok i (le_refl i) (by omega), if_true]
    rw [ih (i + 1) _ (by omega) (by omega) (fun i1 h1 h2 => hok i1 (by omega) h2),
      World.emit_eq_emitAll, World.emitAll_emitAll]
    rfl

theorem readLoop_done (env : DiskEnv) (d : Nat) : ∀ (fuel j : Nat) (total : Int) (w : World),
    d < fuel → (∀ j1, j ≤ j1 → j1 < j + d → (env.reads j1).err = none) →
    (env.reads (j + d)).err ≠ none →
    readLoop env fuel j total w
      = some (readTotal env total j (d + 1), w.emitAll (readEvents env j (d + 1))) := by
  induction d with
  | zero =>
    intro fuel j total w hfuel _ hend
    obtain ⟨fuel, rfl⟩ : ∃ g, fuel = g + 1 := ⟨fuel - 1, by omega⟩
    have hsome : (env.reads j).err.isSome = true := by
      cases h : (env.reads j).err with
      | none => exact absurd h hend
      | some e => rfl
    simp only [readLoop, hsome, if_true, readTotal, readEvents, readStep]
    by_cases hn : (env.reads j).n > 0
    · simp only [hn, if_true, World.emit_eq_emitAll, World.emitAll_emitAll]
      rfl
    · simp only [hn, if_false, World.emit_eq_emitAll, World.emitAll_emitAll]
      rfl
  | succ d ih =>
    intro fuel j total w hfuel hok hend
    obtain ⟨fuel, rfl⟩ : ∃ g, fuel = g + 1 := ⟨fuel - 1, by omega⟩
    have hnone : (env.reads j).err.isSome = false := by
      rw [hok j (le_refl j) (by omega)]
      rfl
    have hend1 : (env.reads (j + 1 + d)).err ≠ none := by
      have : j + 1 + d = j + (d + 1) := by omega
      rw [this]
      exact hend
    rw [readLoop]
    simp only [hnone, Bool.false_eq_true, if_false]
    rw [ih fuel (j + 1) _ _ (by omega) (fun j1 h1 h2 => hok j1 (by omega) (by omega)) hend1]
    have e1 : readTotal env total j (d + 1 + 1)
        = readTotal env (if (env.reads j).n > 0 then wrapInt (total + (env.reads j).n) else total)
            (j + 1) (d + 1) := rfl
    have e2 : readEvents env j (d + 1 + 1) = readStep env j ++ readEvents env (j + 1) (d + 1) :=
      rfl
    rw [e1, e2]
    by_cases hn : (env.reads j).n > 0
    · simp only [hn, if_true, World.emit_eq_emitAll, World.emitAll_emitAll, readStep]
      rfl
    · simp only [hn, if_false, World.emit_eq_emitAll, World.emitAll_emitAll, readStep]

theorem readLoop_running (env : DiskEnv) : ∀ (fuel j : Nat) (total : Int) (w : World),
    (∀ j1, j ≤ j1 → j1 < j + fuel → (env.reads j1).err = none) →
    readLoop env fuel j total w = none := by
  intro fuel
  induction fuel with
  | zero => intro j total w _; rfl
  | succ fuel ih =>
    intro j total w hok
    have hnone : (env.reads j).err.isSome = false := by
      rw [hok j (le_refl j) (by omega)]
      rfl
    rw [readLoop]
    simp only [hnone, Bool.false_eq_true, if_false]
    exact ih (j + 1) _ _ (fun j1 h1 h2 => hok j1 (by omega) (by omega))

/-! ## Every way `diskHandler` can run -/

theorem diskHandler_create_fail (env : DiskEnv) (fuel : Nat) (w : World)
    (hc : env.createOk = false) :
    diskHandler env fuel w
      = some (((w.emitAll [Event.tagStart "handler" "disk",
            Event.log "Handling slow disk request...", Event.tempFile false]).httpError
            "Failed to create temp file" 500).emitAll [Event.tagEnd]) := by
  unfold diskHandler tagWrapper
  simp only [hc, Bool.false_eq_true, if_false, Option.map_some', World.emit_eq_emitAll,
    World.emitAll_emitAll]
  rfl

theorem diskHandler_write_fail (env : DiskEnv) (fuel : Nat) (w : World)
    (hc : env.createOk = true) (f : Nat) (hf : f < 100)
    (hok : ∀ i, i < f → env.writeOk i = true) (hbad : env.writeOk f = false) :
    diskHandler env fuel w
      = some (((w.emitAll (diskStart f ++ [Event.fileWrite (1024 * 1024) false])).httpError
            "Disk write error" 500).emitAll diskEnd) := by
  unfold diskHandler tagWrapper
  simp only [hc, if_true]
  rw [writeLoop_fail env _ f hf hbad f 0 _ (by omega) (by omega) (fun i1 _ h2 => hok i1 h2)]
  simp only [runDefers_eq, Option.map_some', World.emit_eq_emitAll, World.emitAll_emitAll]
  rfl

theorem diskHandler_seek_fail (env : DiskEnv) (fuel : Nat) (w : World)
    (hc : env.createOk = true) (hok : ∀ i, i < 100 → env.writeOk i = true)
    (hs : env.seekOk = false) :
    diskHandler env fuel w
      = some (((w.emitAll (diskStart 100 ++ [Event.fileSeek 0 0 false])).httpError
            "Seek error" 500).emitAll diskEnd) := by
  unfold diskHandler tagWrapper
  simp only [hc, if_true]
  rw [writeLoop_ok env _ 100 0 _ (by omega) (fun i1 _ h2 => hok i1 h2)]
  simp only [hs, Bool.false_eq_true, if_false, runDefers_eq, Option.map_some',
    World.emit_eq_emitAll, World.emitAll_emitAll]
  rfl

theorem diskHandler_read_done (env : DiskEnv) (fuel : Nat) (w : World)
    (hc : env.createOk = true) (hok : ∀ i, i < 100 → env.writeOk i = true)
    (hs : env.seekOk = true) (k : Nat) (hk : k < fuel)
    (hmid : ∀ j, j < k → (env.reads j).err = none) (hend : (env.reads k).err ≠ none) :
    diskHandler env fuel w
      = some (((w.emitAll (diskStart 100 ++ [Event.fileSeek 0 0 true, Event.clockNow]
            ++ readEvents env 0 (k + 1) ++ [Event.clockNow])).fprint
            (diskLine (readTotal env 0 0 (k + 1)) env.elapsed)).emitAll diskEnd) := by
  unfold diskHandler tagWrapper
  simp only [hc, hs, if_true]
  rw [writeLoop_ok env _ 100 0 _ (by omega) (fun i1 _ h2 => hok i1 h2)]
  simp only []
  rw [readLoop_done env k fuel 0 0 _ hk (fun j1 _ h2 => hmid j1 (by omega))
    (by rw [Nat.zero_add]; exact hend)]
  simp only [runDefers_eq, Option.map_some', World.emit_eq_emitAll, World.emitAll_emitAll]
  rfl

theorem diskHandler_read_running (env : DiskEnv) (fuel : Nat) (w : World)
    (hc : env.createOk = true) (hok : ∀ i, i < 100 → env.writeOk i = true)
    (hs : env.seekOk = true) (hmid : ∀ j, j < fuel → (env.reads j).err = none) :
    diskHandler env fuel w = none := by
  unfold diskHandler tagWrapper
  simp only [hc, hs, if_true]
  rw [writeLoop_ok env _ 100 0 _ (by omega) (fun i1 _ h2 => hok i1 h2)]
  simp only []
  rw [readLoop_running env fuel 0 0 _ (fun j1 _ h2 => hmid j1 (by omega))]
  rfl

theorem first_index (p : Nat → Prop) [DecidablePred p] (n : Nat) (h : ∃ i, i < n ∧ p i) :
    ∃ f, f < n ∧ p f ∧ ∀ i, i < f → ¬ p i := by
  have hex : ∃ i, p i := by
    obtain ⟨i, _, hi⟩ := h
    exact ⟨i, hi⟩
  refine ⟨Nat.find hex, ?_, Nat.find_spec hex, fun i hi => Nat.find_min hex hi⟩
  obtain ⟨i, hlt, hi⟩ := h
  exact lt_of_le_of_lt (Nat.find_min' hex hi) hlt

/-- The ways a call of `diskHandler` can go, each with the world it returns. -/
theorem diskHandler_cases (env : DiskEnv) (fuel : Nat) (w : World) :
    (env.createOk = false ∧ diskHandler env fuel w
      = some (((w.emitAll [Event.tagStart "handler" "disk",
            Event.log "Handling slow disk request...", Event.tempFile false]).httpError
            "Failed to create temp file" 500).emitAll [Event.tagEnd]))
    ∨ (env.createOk = true ∧ ∃ f, f < 100 ∧ env.writeOk f = false ∧
        (∀ i, i < f → env.writeOk i = true) ∧ diskHandler env fuel w
      = some (((w.emitAll (diskStart f ++ [Event.fileWrite (1024 * 1024) false])).httpError
            "Disk write error" 500).emitAll diskEnd))
    ∨ (env.createOk = true ∧ (∀ i, i < 100 → env.writeOk i = true) ∧ env.seekOk = false ∧
        diskHandler env fuel w
      = some (((w.emitAll (diskStart 100 ++ [Event.fileSeek 0 0 false])).httpError
            "Seek error" 500).emitAll diskEnd))
    ∨ (env.createOk = true ∧ (∀ i, i < 100 → env.writeOk i = true) ∧ env.seekOk = true ∧
        ∃ k, k < fuel ∧ (env.reads k).err ≠ none ∧ (∀ j, j < k → (env.reads j).err = none) ∧
        diskHandler env fuel w
      = some (((w.emitAll (diskStart 100 ++ [Event.fileSeek 0 0 true, Event.clockNow]
            ++ readEvents env 0 (k + 1) ++ [Event.clockNow])).fprint
            (diskLine (readTotal env 0 0 (k + 1)) env.elapsed)).emitAll diskEnd))
    ∨ (env.createOk = true ∧ (∀ i, i < 100 → env.writeOk i = true) ∧ env.seekOk = true ∧
        (∀ j, j < fuel → (env.reads j).err = none) ∧ diskHandler env fuel w = none) := by
  cases hc : env.createOk with
  | false => exact Or.inl ⟨rfl, diskHandler_create_fail env fuel w hc⟩
  | true =>
    right
    by_cases hw : ∃ i, i < 100 ∧ env.writeOk i = false
    · obtain ⟨f, hf, hbad, hmin⟩ := first_index (fun i => env.writeOk i = false) 100 hw
      have hok : ∀ i, i < f → env.writeOk i = true := fun i hi => by
        have := hmin i hi
        simpa using this
      exact Or.inl ⟨rfl, f, hf, hbad, hok, diskHandler_write_fail env fuel w hc f hf hok hbad⟩
    · right
      have hok : ∀ i, i < 100 → env.writeOk i = true := fun i hi => by
        by_contra hne
        exact hw ⟨i, hi, by simpa using hne⟩
      cases hs : env.seekOk with
      | false => exact Or.inl ⟨rfl, hok, rfl, diskHandler_seek_fail env fuel w hc hok hs⟩
      | true =>
        right
        by_cases hr : ∃ k, k < fuel ∧ (env.reads k).err ≠ none
        · obtain ⟨k, hk, hend, hmin⟩ := first_index (fun k => (env.reads k).err ≠ none) fuel hr
          have hmid : ∀ j, j < k → (env.reads j).err = none := fun j hj => by
            have := hmin j hj
            simpa using this
          exact Or.inl ⟨rfl, hok, rfl, k, hk, hend, hmid,
            diskHandler_read_done env fuel w hc hok hs k hk hmid hend⟩
        · right
          have hmid : ∀ j, j < fuel → (env.reads j).err = none := fun j hj => by
            by_contra hne
            exact hr ⟨j, hj, hne⟩
          exact ⟨rfl, hok, rfl, hmid, diskHandler_read_running env fuel w hc hok hs hmid⟩

/-! ## Every way `networkHandler` can run -/

theorem netReadLoop_done (env : NetEnv) (d : Nat) : ∀ (fuel j : Nat) (w : World),
    d < fuel → (∀ j1, j ≤ j1 → j1 < j + d → env.reads j1 = none) →
    env.reads (j + d) ≠ none →
    netReadLoop env fuel j w = some (w.emitAll (netEvents env j d ++ netStep env (j + d))) := by
  induction d with
  | zero =>
    intro fuel j w hfuel _ hend
    obtain ⟨fuel, rfl⟩ : ∃ g, fuel = g + 1 := ⟨fuel - 1, by omega⟩
    have hsome : (env.reads j).isSome = true := by
      cases h : env.reads j with
      | none => exact absurd h hend
      | some e => rfl
    simp only [netReadLoop, hsome, if_true, World.emit_eq_emitAll, World.emitAll_emitAll]
    rfl
  | succ d ih =>
    intro fuel j w hfuel hok hend
    obtain ⟨fuel, rfl⟩ : ∃ g, fuel = g + 1 := ⟨fuel - 1, by omega⟩
    have hnone : (env.reads j).isSome = false := by
      rw [hok j (le_refl j) (by omega)]
      rfl
    have hidx : j + 1 + d = j + (d + 1) := by omega
    have hend1 : env.reads (j + 1 + d) ≠ none := by
      rw [hidx]
      exact hend
    rw [netReadLoop]
    simp only [hnone, Bool.false_eq_true, if_false]
    rw [ih fuel (j + 1) _ (by omega) (fun j1 h1 h2 => hok j1 (by omega) (by omega)) hend1, hidx]
    simp only [World.emit_eq_emitAll, World.emitAll_emitAll]
    have e2 : netEvents env j (d + 1)
        = netStep env j ++ [Event.sleep 200] ++ netEvents env (j + 1) d := rfl
    rw [e2]
    simp only [netStep, List.append_assoc, List.cons_append, List.nil_append]

theorem netReadLoop_running (env : NetEnv) : ∀ (fuel j : Nat) (w : World),
    (∀ j1, j ≤ j1 → j1 < j + fuel → env.reads j1 = none) →
    netReadLoop env fuel j w = none := by
  intro fuel
  induction fuel with
  | zero => intro j w _; rfl
  | succ fuel ih =>
    intro j w hok
    have hnone : (env.reads j).isSome = false := by
      rw [hok j (le_refl j) (by omega)]
      rfl
    rw [netReadLoop]
    simp only [hnone, Bool.false_eq_true, if_false]
    exact ih (j + 1) _ (fun j1 h1 h2 => hok j1 (by omega) (by omega))

theorem networkHandler_dial_fail (env : NetEnv) (fuel : Nat) (w : World)
    (hd : env.dialOk = false) :
    networkHandler env fuel w
      = some (((w.emitAll [Event.tagStart "handler" "network",
            Event.log "Handling slow network request...", Event.clockNow,
            Event.dial "tcp" "example.org:80" 5000 false]).httpError
            "Network dial error" 500).emitAll [Event.tagEnd]) := by
  unfold networkHandler tagWrapper
  simp only [hd, Bool.false_eq_true, if_false, Option.map_some', World.emit_eq_emitAll,
    World.emitAll_emitAll]
  rfl

theorem networkHandler_done (env : NetEnv) (fuel : Nat) (w : World)
    (hd : env.dialOk = true) (k : Nat) (hk : k < fuel)
    (hmid : ∀ j, j < k → env.reads j = none) (hend : env.reads k ≠ none) :
    networkHandler env fuel w
      = some (((w.emitAll (netStart env ++ netEvents env 0 k ++ netStep env k
            ++ [Event.clockNow])).fprint (netLine env.elapsed)).emitAll
            [Event.connClose, Event.tagEnd]) := by
  unfold networkHandler tagWrapper
  simp only [hd, if_true]
  rw [netReadLoop_done env k fuel 0 _ hk (fun j1 _ h2 => hmid j1 (by omega))
    (by rw [Nat.zero_add]; exact hend)]
  simp only [runDefers_eq, Option.map_some', World.emit_eq_emitAll, World.emitAll_emitAll,
    Nat.zero_add]
  rfl

theorem networkHandler_running (env : NetEnv) (fuel : Nat) (w : World)
    (hd : env.dialOk = true) (hmid : ∀ j, j < fuel → env.reads j = none) :
    networkHandler env fuel w = none := by
  unfold networkHandler tagWrapper
  simp only [hd, if_true]
  rw [netReadLoop_running env fuel 0 _ (fun j1 _ h2 => hmid j1 (by omega))]
  rfl

/-- The ways a call of `networkHandler` can go, each with the world it returns. -/
theorem networkHandler_cases (env : NetEnv) (fuel : Nat) (w : World) :
    (env.dialOk = false ∧ networkHandler env fuel w
      = some (((w.emitAll [Event.tagStart "handler" "network",
            Event.log "Handling slow network request...", Event.clockNow,
            Event.dial "tcp" "example.org:80" 5000 false]).httpError
            "Network dial error" 500).emitAll [Event.tagEnd]))
    ∨ (env.dialOk = true ∧ ∃ k, k < fuel ∧ env.reads k ≠ none ∧
        (∀ j, j < k → env.reads j = none) ∧ networkHandler env fuel w
      = some (((w.emitAll (netStart env ++ netEvents env 0 k ++ netStep env k
            ++ [Event.clockNow])).fprint (netLine env.elapsed)).emitAll
            [Event.connClose, Event.tagEnd]))
    ∨ (env.dialOk = true ∧ (∀ j, j < fuel → env.reads j = none) ∧
        networkHandler env fuel w = none) := by
  cases hd : env.dialOk with
  | false => exact Or.inl ⟨rfl, networkHandler_dial_fail env fuel w hd⟩
  | true =>
    right
    by_cases hr : ∃ k, k < fuel ∧ env.reads k ≠ none
    · obtain ⟨k, hk, hend, hmin⟩ := first_index (fun k => env.reads k ≠ none) fuel hr
      have hmid : ∀ j, j < k → env.reads j = none := fun j hj => by
        have := hmin j hj
        simpa using this
      exact Or.inl ⟨rfl, k, hk, hend, hmid, networkHandler_done env fuel w hd k hk hmid hend⟩
    · right
      have hmid : ∀ j, j < fuel → env.reads j = none := fun j hj => by
        by_contra hne
        exact hr ⟨j, hj, hne⟩
      exact ⟨rfl, hmid, networkHandler_running env fuel w hd hmid⟩

/-! ## The memory handler, one call -/

@[simp] theorem World.retain_trace (w : World) (b : List Nat) :
    (w.retain b).trace = w.trace := rfl

@[simp] theorem World.retain_resp (w : World) (b : List Nat) :
    (w.retain b).resp = w.resp := rfl

@[simp] theorem World.retain_memleak (w : World) (b : List Nat) :
    (w.retain b).memleak = w.memleak ++ [b] := rfl

theorem buffer_size : 100 * 1024 * 1024 = 4096 * 25600 := by norm_num

theorem touchLoop_buffer (w : World) :
    touchLoop (makeBytes (100 * 1024 * 1024)) 0 w
      = some (List.replicate (4096 * 25600) 0, w.emitAll (touchEvents 0 25600)) := by
  have h := touchLoop_zero 25600 25600 0 w rfl
  rw [Nat.mul_zero] at h
  rw [makeBytes, buffer_size]
  exact h

theorem memoryHandler_eq (w : World) :
    memoryHandler w
      = some (((((w.emitAll ([Event.tagStart "handler" "memory",
            Event.log "Handling memory leak request...", Event.alloc (100 * 1024 * 1024)]
            ++ touchEvents 0 25600)).retain (List.replicate (4096 * 25600) 0)).fprint
            "Memory leak allocated 100MB!\n")).emitAll [Event.tagEnd]) := by
  unfold memoryHandler tagWrapper
  simp only [World.emit_eq_emitAll, World.emitAll_emitAll, touchLoop_buffer, Option.map_some']
  rfl

theorem slowHandler_eq (w : World) :
    slowHandler w
      = some (((w.emitAll ([Event.tagStart "handler" "slow",
            Event.log "Handling slow request..."]
            ++ List.replicate 20000000 Event.clockNow)).fprint
            "Slow request handled!\n").emitAll [Event.tagEnd]) := by
  unfold slowHandler tagWrapper
  simp only [work_eq, Option.map_some', World.emit_eq_emitAll, World.emitAll_emitAll]
  rfl

theorem fastHandler_eq (w : World) :
    fastHandler w
      = some (((w.emitAll ([Event.tagStart "handler" "fast",
            Event.log "Handling fast request..."]
            ++ List.replicate 5000000 Event.clockNow)).fprint
            "Fast request handled!\n").emitAll [Event.tagEnd]) := by
  unfold fastHandler tagWrapper
  simp only [work_eq, Option.map_some', World.emit_eq_emitAll, World.emitAll_emitAll]
  rfl

theorem samples_emitAll_clock (w : World) (k : Nat) :
    (w.emitAll (List.replicate k Event.clockNow)).samples = w.samples + k := by
  simp [World.samples, List.count_append, List.count_replicate]

theorem touchEvents_zero (m : Nat) :
    touchEvents 0 m
      = (List.range m).map fun k => Event.store (4096 * k) (toByte (4096 * k)) := by
  rw [touchEvents, Nat.sub_zero, List.range_eq_range']

theorem nodup_pages (n : Nat) : ((List.range n).map fun k => 4096 * k).Nodup := by
  apply List.Nodup.map _ (List.nodup_range n)
  intro a b hab
  have h : 4096 * a = 4096 * b := hab
  omega

/-! ## The route table -/

theorem registerRoutes_eq : registerRoutes = some routeTable := by
  decide

theorem route_iff_mem (mux : Mux) (hnd : (mux.map Prod.fst).Nodup) (p : String)
    (h : HandlerId) : route mux p = some h ↔ (p, h) ∈ mux := by
  induction mux with
  | nil => simp [route]
  | cons a rest ih =>
    obtain ⟨q, g⟩ := a
    rw [List.map_cons, List.nodup_cons] at hnd
    have ih1 := ih hnd.2
    unfold route at ih1 ⊢
    by_cases hq : q = p
    · subst hq
      have hnot : (q, h) ∉ rest := fun hmem => hnd.1 (List.mem_map.mpr ⟨(q, h), hmem, rfl⟩)
      simp [List.find?_cons, hnot, eq_comm]
    · have hne : (q == p) = false := by simpa using hq
      have hq1 : ¬ p = q := fun e => hq e.symm
      simp only [List.find?_cons, hne, List.mem_cons, Prod.mk.injEq, hq1, false_and, false_or]
      exact ih1

/-! ## Claims about `work`, the CPU handlers and the memory handler -/

/-- C7: for every integer `n`, `work n` is a total function, so the call
terminates; it samples the clock `n` times when `n ≥ 0` and leaves the world as
it was when `n < 0`, hence the number of samples is non-decreasing in `n`.
`slowHandler` takes exactly 20,000,000 samples and `fastHandler` exactly
5,000,000, all of them before the confirmation line is written. -/
theorem work_samples_clock (n : Int) (w : World) :
    work n w = w.emitAll (List.replicate n.toNat Event.clockNow)
    ∧ (0 ≤ n → ((work n w).samples : Int) = w.samples + n)
    ∧ (n < 0 → work n w = w)
    ∧ (∀ m : Int, n ≤ m → (work n w).samples ≤ (work m w).samples)
    ∧ (slowHandler w).map World.trace
        = some (w.trace ++ ([Event.tagStart "handler" "slow",
            Event.log "Handling slow request..."]
            ++ List.replicate 20000000 Event.clockNow
            ++ [Event.respWrite "Slow request handled!\n", Event.tagEnd]))
    ∧ (fastHandler w).map World.trace
        = some (w.trace ++ ([Event.tagStart "handler" "fast",
            Event.log "Handling fast request..."]
            ++ List.replicate 5000000 Event.clockNow
            ++ [Event.respWrite "Fast request handled!\n", Event.tagEnd])) := by
  refine ⟨work_eq n w, ?_, ?_, ?_, ?_, ?_⟩
  · intro h
    rw [work_eq, samples_emitAll_clock]
    push_cast
    rw [Int.toNat_of_nonneg h]
  · intro h
    have h0 : n.toNat = 0 := by omega
    rw [work_eq, h0]
    exact World.emitAll_nil w
  · intro m h
    rw [work_eq, work_eq, samples_emitAll_clock, samples_emitAll_clock]
    omega
  · rw [slowHandler_eq]
    simp only [Option.map_some', World.emitAll_trace, World.fprint_trace, List.append_assoc]
    rfl
  · rw [fastHandler_eq]
    simp only [Option.map_some', World.emitAll_trace, World.fprint_trace, List.append_assoc]
    rfl

/-- Instance of C7 at `n = 3` and at `n = -2`. -/
theorem work_samples_clock_witness :
    ((work 3 (World.request [])).samples : Int) = (World.request []).samples + 3
    ∧ work (-2) (World.request []) = World.request [] :=
  ⟨(work_samples_clock 3 (World.request [])).2.1 (by decide),
    (work_samples_clock (-2) (World.request [])).2.2.1 (by decide)⟩

/-- C9: the page-touch loop of `memoryHandler`, run on the freshly made buffer
of 104,857,600 bytes, does not panic and performs exactly the 25,600 stores
`b[4096 * k] = byte(4096 * k)` for `k = 0 .. 25599`, in this order and nothing
else; the indices are pairwise different and in bounds, and the value stored is
0 each time.  The buffer the handler appends to the retention list is the
all-zero buffer of 104,857,600 bytes. -/
theorem memoryHandler_touches_pages (w : World) :
    touchLoop (makeBytes (100 * 1024 * 1024)) 0 w
      = some (List.replicate 104857600 0,
          w.emitAll ((List.range 25600).map fun k =>
            Event.store (4096 * k) (toByte (4096 * k))))
    ∧ ((List.range 25600).map fun k => Event.store (4096 * k) (toByte (4096 * k))).length
        = 25600
    ∧ ((List.range 25600).map fun k => 4096 * k).Nodup
    ∧ (∀ k, k < 25600 → 4096 * k < 104857600 ∧ toByte (4096 * k) = 0)
    ∧ (memoryHandler w).map World.memleak = some (w.memleak ++ [List.replicate 104857600 0]) := by
  have hsize : 4096 * 25600 = 104857600 := by norm_num
  refine ⟨?_, ?_, nodup_pages 25600, ?_, ?_⟩
  · rw [touchLoop_buffer, touchEvents_zero, hsize]
  · rw [List.length_map, List.length_range]
  · intro k hk
    exact ⟨by omega, toByte_page k⟩
  · rw [memoryHandler_eq, hsize]
    rfl

/-- Instance of C9 at page 25,599, the last one. -/
theorem memoryHandler_touches_pages_witness :
    4096 * 25599 < 104857600 ∧ toByte (4096 * 25599) = 0 :=
  (memoryHandler_touches_pages (World.request [])).2.2.2.1 25599 (by decide)

/-! ## The retention list -/

theorem memoryHandler_memleak (w : World) :
    (memoryHandler w).map World.memleak
      = some (w.memleak ++ [List.replicate (4096 * 25600) 0]) := by
  rw [memoryHandler_eq]
  rfl

theorem sequentialCalls_eq (handler : World → Option World) (buf : List Nat)
    (hbuf : ∀ w, (handler w).map World.memleak = some (w.memleak ++ [buf])) (n : Nat) :
    ∀ l, sequentialCalls handler n l = some (l ++ List.replicate n buf) := by
  induction n with
  | zero => intro l; simp [sequentialCalls]
  | succ n ih =>
    intro l
    have h := hbuf (World.request l)
    rw [sequentialCalls]
    cases hm : handler (World.request l) with
    | none =>
      rw [hm] at h
      cases h
    | some w1 =>
      rw [hm] at h
      have hw1 : w1.memleak = l ++ [buf] := by
        simpa [World.request] using h
      simp only [ih, hw1, List.append_assoc, List.singleton_append]
      rw [List.replicate_succ]

theorem retainedBytes_replicate (buf : List Nat) (n : Nat) :
    retainedBytes (List.replicate n buf) = n * buf.length := by
  induction n with
  | zero => simp [retainedBytes]
  | succ n ih =>
    unfold retainedBytes at ih ⊢
    rw [List.replicate_succ, List.map_cons, List.sum_cons, ih]
    ring

theorem serve_memleak (h : HandlerId) (env : Env) (fuel : Nat) (w w1 : World)
    (hs : serve h env fuel w = some w1) : ∃ t, w1.memleak = w.memleak ++ t := by
  cases h with
  | slow =>
    rw [serve, slowHandler_eq] at hs
    cases hs
    exact ⟨[], by simp only [World.emitAll_memleak, World.fprint_memleak, List.append_nil]⟩
  | fast =>
    rw [serve, fastHandler_eq] at hs
    cases hs
    exact ⟨[], by simp only [World.emitAll_memleak, World.fprint_memleak, List.append_nil]⟩
  | memory =>
    have hm := memoryHandler_memleak w
    rw [serve] at hs
    rw [hs] at hm
    exact ⟨_, Option.some.inj hm⟩
  | disk =>
    rw [serve] at hs
    refine ⟨[], ?_⟩
    rcases diskHandler_cases env.disk fuel w with
      ⟨_, h1⟩ | ⟨_, _, _, _, _, h1⟩ | ⟨_, _, _, h1⟩ | ⟨_, _, _, _, _, _, _, h1⟩ | ⟨_, _, _, _, h1⟩ <;>
    · rw [h1] at hs
      cases hs
      try simp only [World.emitAll_memleak, World.fprint_memleak, World.httpError_memleak,
        List.append_nil]
  | network =>
    rw [serve] at hs
    refine ⟨[], ?_⟩
    rcases networkHandler_cases env.net fuel w with
      ⟨_, h1⟩ | ⟨_, _, _, _, _, h1⟩ | ⟨_, _, h1⟩ <;>
    · rw [h1] at hs
      cases hs
      try simp only [World.emitAll_memleak, World.fprint_memleak, World.httpError_memleak,
        List.append_nil]

/-- C3: a call of `memoryHandler` turns the retention list `L` into `L ++ [b]`
with `b` of length 104,857,600, so the buffers already in `L` stay in place and
in order; starting from the empty list, `N` calls one after the other leave
exactly `N` buffers holding `N * 104,857,600` bytes; and no handler of the
program, however the outside world answers, returns with anything but an
extension of the list it started with. -/
theorem memoryHandler_appends_buffer :
    (∀ w : World, ∃ b : List Nat, b.length = 104857600
        ∧ (memoryHandler w).map World.memleak = some (w.memleak ++ [b]))
    ∧ (∀ N : Nat, ∃ l, memoryCalls N [] = some l ∧ l.length = N
        ∧ retainedBytes l = N * 104857600 ∧ N * (100 * 1024 * 1024) ≤ retainedBytes l)
    ∧ (∀ (h : HandlerId) (env : Env) (fuel : Nat) (w w1 : World),
        serve h env fuel w = some w1 → ∃ t, w1.memleak = w.memleak ++ t) := by
  obtain ⟨buf, hlen, hbuf⟩ : ∃ buf : List Nat, buf.length = 104857600
      ∧ ∀ w, (memoryHandler w).map World.memleak = some (w.memleak ++ [buf]) :=
    ⟨List.replicate (4096 * 25600) 0, by rw [List.length_replicate], memoryHandler_memleak⟩
  refine ⟨fun w => ⟨buf, hlen, hbuf w⟩, ?_, serve_memleak⟩
  intro N
  refine ⟨List.replicate N buf, ?_, List.length_replicate N buf, ?_, ?_⟩
  · rw [memoryCalls, sequentialCalls_eq memoryHandler buf hbuf N []]
    rfl
  · rw [retainedBytes_replicate, hlen]
  · rw [retainedBytes_replicate, hlen]

/-- Instance of C3: a `/slow` request served on a list of one buffer. -/
theorem memoryHandler_appends_buffer_witness :
    ∃ t, ((World.request [[0]]).emitAll ([Event.tagStart "handler" "slow",
        Event.log "Handling slow request..."]
        ++ List.replicate 20000000 Event.clockNow)
        |>.fprint "Slow request handled!\n" |>.emitAll [Event.tagEnd]).memleak
      = (World.request [[0]]).memleak ++ t :=
  memoryHandler_appends_buffer.2.2 HandlerId.slow
    ⟨⟨true, fun _ => true, true, fun _ => ⟨0, some ErrKind.eof⟩, ""⟩,
      ⟨true, true, fun _ => some ErrKind.eof, ""⟩⟩ 0 (World.request [[0]]) _
    (slowHandler_eq (World.request [[0]]))

/-! ## Claims about the route table and the fixed response bodies -/

theorem slowHandler_resp (l : List (List Nat)) :
    (slowHandler (World.request l)).map World.resp
      = some ⟨some 200, "Slow request handled!\n"⟩ := by
  rw [slowHandler_eq]
  simp only [Option.map_some', World.emitAll_resp, World.fprint_resp, World.request,
    ResponseWriter.fresh_write]

theorem fastHandler_resp (l : List (List Nat)) :
    (fastHandler (World.request l)).map World.resp
      = some ⟨some 200, "Fast request handled!\n"⟩ := by
  rw [fastHandler_eq]
  simp only [Option.map_some', World.emitAll_resp, World.fprint_resp, World.request,
    ResponseWriter.fresh_write]

theorem memoryHandler_resp (l : List (List Nat)) :
    (memoryHandler (World.request l)).map World.resp
      = some ⟨some 200, "Memory leak allocated 100MB!\n"⟩ := by
  rw [memoryHandler_eq]
  simp only [Option.map_some', World.emitAll_resp, World.fprint_resp, World.retain_resp,
    World.request, ResponseWriter.fresh_write]

/-- C6 as stated fails on the response body: the body `slowHandler` writes is
not the bare text `"Slow request handled!"` (`fmt.Fprintln` ends it with a
newline). -/
theorem slowHandler_body_counterexample :
    (slowHandler (World.request [])).map (fun w => w.resp.body)
      ≠ some "Slow request handled!" := by
  have h : (slowHandler (World.request [])).map (fun w => w.resp.body)
      = some "Slow request handled!\n" := by
    have h1 := slowHandler_resp []
    cases hs : slowHandler (World.request []) with
    | none =>
      rw [hs] at h1
      cases h1
    | some w1 =>
      rw [hs] at h1
      have h2 : w1.resp = ⟨some 200, "Slow request handled!\n"⟩ := Option.some.inj h1
      simp only [Option.map_some', h2]
  rw [h]
  decide

/-- C6, amended: `main` registers exactly the five paths `/slow`, `/fast`,
`/memory`, `/disk` and `/network`, without a panic, and the table pairs them
one-to-one with `slowHandler`, `fastHandler`, `memoryHandler`, `diskHandler` and
`networkHandler`: a path is routed to a handler exactly when the pair is in the
table, no path and no handler occurs twice, and every handler is reached.  Every
request to `/slow`, `/fast` and `/memory` returns with status 200 and the body
`"Slow request handled!\n"`, `"Fast request handled!\n"` and
`"Memory leak allocated 100MB!\n"`: the fixed text followed by one newline. -/
theorem routes_and_fixed_bodies :
    registerRoutes = some routeTable
    ∧ (∀ (p : String) (h : HandlerId), route routeTable p = some h ↔ (p, h) ∈ routeTable)
    ∧ (routeTable.map Prod.fst).Nodup
    ∧ (routeTable.map Prod.snd).Nodup
    ∧ (∀ h : HandlerId, ∃ p, route routeTable p = some h)
    ∧ (∀ (env : Env) (fuel : Nat) (l : List (List Nat)),
        (route routeTable "/slow" = some HandlerId.slow
          ∧ (serve HandlerId.slow env fuel (World.request l)).map World.resp
            = some ⟨some 200, "Slow request handled!\n"⟩)
        ∧ (route routeTable "/fast" = some HandlerId.fast
          ∧ (serve HandlerId.fast env fuel (World.request l)).map World.resp
            = some ⟨some 200, "Fast request handled!\n"⟩)
        ∧ (route routeTable "/memory" = some HandlerId.memory
          ∧ (serve HandlerId.memory env fuel (World.request l)).map World.resp
            = some ⟨some 200, "Memory leak allocated 100MB!\n"⟩)
        ∧ route routeTable "/disk" = some HandlerId.disk
        ∧ route routeTable "/network" = some HandlerId.network) := by
  have hkeys : (routeTable.map Prod.fst).Nodup := by decide
  refine ⟨registerRoutes_eq, route_iff_mem routeTable hkeys, hkeys, by decide, ?_, ?_⟩
  · intro h
    cases h
    · exact ⟨"/slow", by decide⟩
    · exact ⟨"/fast", by decide⟩
    · exact ⟨"/memory", by decide⟩
    · exact ⟨"/disk", by decide⟩
    · exact ⟨"/network", by decide⟩
  · intro env fuel l
    exact ⟨⟨by decide, slowHandler_resp l⟩, ⟨by decide, fastHandler_resp l⟩,
      ⟨by decide, memoryHandler_resp l⟩, by decide, by decide⟩

/-! ## Claims about the disk handler -/

theorem readTotal_eq_sum (env : DiskEnv) (d : Nat) : ∀ (total : Int) (j : Nat),
    0 ≤ total →
    total + (((List.range' j d).map fun i => (env.reads i).n).sum : Nat) < 2 ^ 63 →
    readTotal env total j d
      = total + (((List.range' j d).map fun i => (env.reads i).n).sum : Nat) := by
  induction d with
  | zero =>
    intro total j _ _
    simp [readTotal]
  | succ d ih =>
    intro total j h0 hlt
    rw [List.range'_succ, List.map_cons, List.sum_cons] at hlt ⊢
    rw [readTotal]
    have ih1 := ih (if (env.reads j).n > 0 then wrapInt (total + (env.reads j).n) else total)
      (j + 1)
    generalize ((List.range' (j + 1) d).map fun i => (env.reads i).n).sum = S at hlt ih1 ⊢
    by_cases hn : (env.reads j).n > 0
    · simp only [hn, if_true] at ih1 ⊢
      rw [wrapInt_id _ (by omega) (by omega)] at ih1 ⊢
      rw [ih1 (by omega) (by omega)]
      omega
    · have hz : (env.reads j).n = 0 := by omega
      simp only [hn, if_false] at ih1 ⊢
      rw [ih1 h0 (by omega), hz]
      omega

theorem diskLine_full (elapsed : String) :
    diskLine 104857600 elapsed = "Disk read 104857600 bytes in " ++ elapsed ++ "!\n" := by
  have h : "Disk read " ++ toString (104857600 : Int) ++ " bytes in "
      = "Disk read 104857600 bytes in " := by decide
  rw [diskLine, h]

/-- C1: when the temporary file is created, the 100 writes of the 1,048,576-byte
chunk and the seek succeed, and the reads return 104,857,600 bytes in all before
the first read that reports an error (however the bytes are split over the
reads, so in particular in chunks of 1 to 1,048,576 bytes ended by end of file),
`diskHandler` returns, with status 200 and the line
`Disk read 104857600 bytes in <duration>!`. -/
theorem diskHandler_reports_written_size (env : DiskEnv) (fuel k : Nat)
    (l : List (List Nat))
    (hc : env.createOk = true) (hw : ∀ i, i < 100 → env.writeOk i = true)
    (hs : env.seekOk = true)
    (hmid : ∀ j, j < k → (env.reads j).err = none) (hend : (env.reads k).err ≠ none)
    (hsum : ((List.range (k + 1)).map fun j => (env.reads j).n).sum = 104857600)
    (hfuel : k < fuel) :
    (diskHandler env fuel (World.request l)).map World.resp
      = some ⟨some 200, "Disk read 104857600 bytes in " ++ env.elapsed ++ "!\n"⟩ := by
  rw [List.range_eq_range'] at hsum
  have htot : readTotal env 0 0 (k + 1) = 104857600 := by
    rw [readTotal_eq_sum env (k + 1) 0 0 (le_refl 0) (by rw [hsum]; norm_num), hsum]
    norm_num
  rw [diskHandler_read_done env fuel _ hc hw hs k hfuel hmid hend, htot, diskLine_full]
  simp only [Option.map_some', World.emitAll_resp, World.fprint_resp, World.request,
    ResponseWriter.fresh_write]

/-- Instance of C1: 100 full chunks, then end of file. -/
theorem diskHandler_reports_written_size_witness :
    (diskHandler steadyDisk 101 (World.request [])).map World.resp
      = some ⟨some 200, "Disk read 104857600 bytes in " ++ steadyDisk.elapsed ++ "!\n"⟩ :=
  diskHandler_reports_written_size steadyDisk 101 100 [] rfl (fun _ _ => rfl) rfl
    (fun j hj => by simp [steadyDisk, hj]) (by decide) (by decide) (by decide)

theorem cleanup_not_mem_diskStart (n : Nat) :
    Event.fileClose ∉ diskStart n ∧ Event.fileRemove ∉ diskStart n := by
  constructor <;> simp [diskStart, List.mem_replicate]

theorem cleanup_not_mem_readEvents (env : DiskEnv) (d : Nat) : ∀ j,
    Event.fileClose ∉ readEvents env j d ∧ Event.fileRemove ∉ readEvents env j d := by
  induction d with
  | zero => intro j; simp [readEvents]
  | succ d ih =>
    intro j
    have h := ih (j + 1)
    have e : readEvents env j (d + 1) = readStep env j ++ readEvents env (j + 1) d := rfl
    rw [e]
    by_cases hn : (env.reads j).n > 0 <;> simp [readStep, hn, h.1, h.2]

theorem cleanup_once (pre : List Event) (h1 : Event.fileClose ∉ pre)
    (h2 : Event.fileRemove ∉ pre) :
    (pre ++ diskEnd).count Event.fileClose = 1
      ∧ (pre ++ diskEnd).count Event.fileRemove = 1 := by
  rw [List.count_append, List.count_append, List.count_eq_zero_of_not_mem h1,
    List.count_eq_zero_of_not_mem h2]
  exact ⟨by decide, by decide⟩

/-- C2: on every exit path of `diskHandler` behind a successful creation of the
temporary file (a failed write, a failed seek, the read loop ended by a read
error) the handler returns, and the trace of the call ends with `f.Close()`,
`os.Remove(f.Name())` and the end of the labelled scope, in this order; neither
call occurs earlier, so each is made exactly once and the close comes first. -/
theorem diskHandler_cleans_up (env : DiskEnv) (fuel : Nat) (l : List (List Nat))
    (hc : env.createOk = true)
    (hexit : (∃ i, i < 100 ∧ env.writeOk i = false) ∨ env.seekOk = false
      ∨ ∃ k, k < fuel ∧ (env.reads k).err ≠ none) :
    ∃ w1 pre, diskHandler env fuel (World.request l) = some w1
      ∧ w1.trace = pre ++ [Event.fileClose, Event.fileRemove, Event.tagEnd]
      ∧ Event.fileClose ∉ pre ∧ Event.fileRemove ∉ pre
      ∧ w1.trace.count Event.fileClose = 1 ∧ w1.trace.count Event.fileRemove = 1 := by
  have key : ∀ (w1 : World) (pre : List Event),
      diskHandler env fuel (World.request l) = some w1 → w1.trace = pre ++ diskEnd →
      Event.fileClose ∉ pre → Event.fileRemove ∉ pre →
      ∃ w1 pre, diskHandler env fuel (World.request l) = some w1
        ∧ w1.trace = pre ++ [Event.fileClose, Event.fileRemove, Event.tagEnd]
        ∧ Event.fileClose ∉ pre ∧ Event.fileRemove ∉ pre
        ∧ w1.trace.count Event.fileClose = 1 ∧ w1.trace.count Event.fileRemove = 1 := by
    intro w1 pre hrun htr h1 h2
    have hcount := cleanup_once pre h1 h2
    rw [← htr] at hcount
    exact ⟨w1, pre, hrun, htr, h1, h2, hcount.1, hcount.2⟩
  rcases diskHandler_cases env fuel (World.request l) with
    ⟨hc0, _⟩ | ⟨_, f, _, _, _, h1⟩ | ⟨_, _, _, h1⟩ | ⟨_, _, _, k, _, _, _, h1⟩
      | ⟨_, hw, hs, hr, _⟩
  · rw [hc] at hc0
    cases hc0
  · refine key _ (diskStart f ++ [Event.fileWrite (1024 * 1024) false,
      Event.httpError "Disk write error" 500]) h1 ?_ ?_ ?_
    · simp only [World.emitAll_trace, World.httpError_trace, World.request, List.nil_append,
        List.append_assoc, List.singleton_append]
    · simp [(cleanup_not_mem_diskStart f).1]
    · simp [(cleanup_not_mem_diskStart f).2]
  · refine key _ (diskStart 100 ++ [Event.fileSeek 0 0 false,
      Event.httpError "Seek error" 500]) h1 ?_ ?_ ?_
    · simp only [World.emitAll_trace, World.httpError_trace, World.request, List.nil_append,
        List.append_assoc, List.singleton_append]
    · simp [(cleanup_not_mem_diskStart 100).1]
    · simp [(cleanup_not_mem_diskStart 100).2]
  · refine key _ (diskStart 100 ++ [Event.fileSeek 0 0 true, Event.clockNow]
      ++ readEvents env 0 (k + 1) ++ [Event.clockNow,
        Event.respWrite (diskLine (readTotal env 0 0 (k + 1)) env.elapsed)]) h1 ?_ ?_ ?_
    · simp only [World.emitAll_trace, World.fprint_trace, World.request, List.nil_append,
        List.append_assoc, List.singleton_append, List.cons_append]
    · simp [(cleanup_not_mem_diskStart 100).1, (cleanup_not_mem_readEvents env (k + 1) 0).1]
    · simp [(cleanup_not_mem_diskStart 100).2, (cleanup_not_mem_readEvents env (k + 1) 0).2]
  · rcases hexit with ⟨i, hi, hbad⟩ | hbad | ⟨k, hk, hbad⟩
    · rw [hw i hi] at hbad
      cases hbad
    · rw [hs] at hbad
      cases hbad
    · exact absurd (hr k hk) hbad

/-- Instance of C2: the write of loop index 3 fails. -/
theorem diskHandler_cleans_up_witness :
    ∃ w1 pre, diskHandler fullDisk 0 (World.request []) = some w1
      ∧ w1.trace = pre ++ [Event.fileClose, Event.fileRemove, Event.tagEnd]
      ∧ Event.fileClose ∉ pre ∧ Event.fileRemove ∉ pre
      ∧ w1.trace.count Event.fileClose = 1 ∧ w1.trace.count Event.fileRemove = 1 :=
  diskHandler_cleans_up fullDisk 0 [] rfl (Or.inl ⟨3, by decide, by decide⟩)

theorem error_line (msg : String) (code : Nat) (l : List (List Nat)) :
    ((World.request l).resp.writeHeader code).write msg = ⟨some code, msg⟩ :=
  ResponseWriter.fresh_error msg code

/-- C5: a call of `diskHandler` that returns answers with status 500 exactly
when the creation of the temporary file, one of the 100 writes, or the seek
failed.  The handler stops at the first failure: after a failed creation
nothing else is called; after the first failed write, of index `f`, the trace
holds the `f` writes before it, the failed write, the error response and the
cleanup, and no seek, read or success line; after a failed seek it holds the 100
writes, the seek, the error response and the cleanup, and no read or success
line.  A read error is not reported: the first read with an error ends the read
loop, and the handler answers with status 200 and the line
`Disk read <total> bytes in <duration>!`. -/
theorem diskHandler_failure_cases (env : DiskEnv) (fuel : Nat) (l : List (List Nat)) :
    (∀ w1, diskHandler env fuel (World.request l) = some w1 →
      (w1.resp.status = some 500 ↔
        (env.createOk = false ∨ (∃ i, i < 100 ∧ env.writeOk i = false)
          ∨ env.seekOk = false)))
    ∧ (env.createOk = false →
        (diskHandler env fuel (World.request l)).map World.view
          = some ([Event.tagStart "handler" "disk",
              Event.log "Handling slow disk request...", Event.tempFile false,
              Event.httpError "Failed to create temp file" 500, Event.tagEnd],
            ⟨some 500, "Failed to create temp file\n"⟩))
    ∧ (env.createOk = true → ∀ f, f < 100 → (∀ i, i < f → env.writeOk i = true) →
        env.writeOk f = false →
        (diskHandler env fuel (World.request l)).map World.view
          = some (diskStart f ++ [Event.fileWrite (1024 * 1024) false,
              Event.httpError "Disk write error" 500] ++ diskEnd,
            ⟨some 500, "Disk write error\n"⟩))
    ∧ (env.createOk = true → (∀ i, i < 100 → env.writeOk i = true) → env.seekOk = false →
        (diskHandler env fuel (World.request l)).map World.view
          = some (diskStart 100 ++ [Event.fileSeek 0 0 false,
              Event.httpError "Seek error" 500] ++ diskEnd,
            ⟨some 500, "Seek error\n"⟩))
    ∧ (env.createOk = true → (∀ i, i < 100 → env.writeOk i = true) → env.seekOk = true →
        ∀ k, k < fuel → (∀ j, j < k → (env.reads j).err = none) →
        (env.reads k).err ≠ none →
        (diskHandler env fuel (World.request l)).map World.view
          = some (diskStart 100 ++ [Event.fileSeek 0 0 true, Event.clockNow]
              ++ readEvents env 0 (k + 1)
              ++ [Event.clockNow,
                Event.respWrite (diskLine (readTotal env 0 0 (k + 1)) env.elapsed)]
              ++ diskEnd,
            ⟨some 200, diskLine (readTotal env 0 0 (k + 1)) env.elapsed⟩)) := by
  refine ⟨?_, ?_, ?_, ?_, ?_⟩
  · intro w1 hrun
    rcases diskHandler_cases env fuel (World.request l) with
      ⟨hc, h1⟩ | ⟨_, f, hf, hbad, _, h1⟩ | ⟨_, _, hs, h1⟩ | ⟨hc, hw, hs, _, _, _, _, h1⟩
        | ⟨_, _, _, _, h1⟩
    · rw [h1] at hrun
      cases hrun
      simp only [World.emitAll_resp, World.httpError_resp, error_line, hc, true_or]
    · rw [h1] at hrun
      cases hrun
      simp only [World.emitAll_resp, World.httpError_resp, error_line, true_iff]
      exact Or.inr (Or.inl ⟨f, hf, hbad⟩)
    · rw [h1] at hrun
      cases hrun
      simp only [World.emitAll_resp, World.httpError_resp, error_line, hs, or_true]
    · rw [h1] at hrun
      cases hrun
      simp only [World.emitAll_resp, World.fprint_resp, World.request,
        ResponseWriter.fresh_write, hc, hs]
      constructor
      · intro h
        cases h
      · rintro (h | ⟨i, hi, hbad⟩ | h)
        · cases h
        · rw [hw i hi] at hbad
          cases hbad
        · cases h
    · rw [h1] at hrun
      cases hrun
  · intro hc
    rw [diskHandler_create_fail env fuel _ hc]
    simp only [Option.map_some', World.view, World.emitAll_trace, World.httpError_trace,
      World.emitAll_resp, World.httpError_resp, error_line, World.request, List.nil_append]
    rfl
  · intro hc f hf hok hbad
    rw [diskHandler_write_fail env fuel _ hc f hf hok hbad]
    simp only [Option.map_some', World.view, World.emitAll_trace, World.httpError_trace,
      World.emitAll_resp, World.httpError_resp, error_line, World.request, List.nil_append,
      List.append_assoc]
    rfl
  · intro hc hok hs
    rw [diskHandler_seek_fail env fuel _ hc hok hs]
    simp only [Option.map_some', World.view, World.emitAll_trace, World.httpError_trace,
      World.emitAll_resp, World.httpError_resp, error_line, World.request, List.nil_append,
      List.append_assoc]
    rfl
  · intro hc hok hs k hk hmid hend
    rw [diskHandler_read_done env fuel _ hc hok hs k hk hmid hend]
    simp only [Option.map_some', World.view, World.emitAll_trace, World.fprint_trace,
      World.emitAll_resp, World.fprint_resp, World.request, ResponseWriter.fresh_write,
      List.nil_append, List.append_assoc]
    rfl

/-- Instance of C5: the write of loop index 3 fails. -/
theorem diskHandler_failure_cases_witness :
    (diskHandler fullDisk 0 (World.request [])).map World.view
      = some (diskStart 3 ++ [Event.fileWrite (1024 * 1024) false,
          Event.httpError "Disk write error" 500] ++ diskEnd,
        ⟨some 500, "Disk write error\n"⟩) :=
  (diskHandler_failure_cases fullDisk 0 []).2.2.1 rfl 3 (by decide) (by decide) (by decide)

/-! ## Claims about the network handler -/

theorem netEvents_rounds (env : NetEnv) (k : Nat) : ∀ j,
    (∀ j1, j ≤ j1 → j1 < j + k → env.reads j1 = none) →
    netEvents env j k = (List.replicate k netRound).flatten := by
  induction k with
  | zero => intro j _; rfl
  | succ k ih =>
    intro j hok
    have e : netEvents env j (k + 1)
        = netStep env j ++ [Event.sleep 200] ++ netEvents env (j + 1) k := rfl
    rw [e, ih (j + 1) (fun j1 h1 h2 => hok j1 (by omega) (by omega)), List.replicate_succ,
      List.flatten_cons, netStep, hok j (le_refl j) (by omega)]
    rfl

theorem count_rounds (e : Event) (k : Nat) :
    (List.replicate k netRound).flatten.count e = k * netRound.count e := by
  induction k with
  | zero => simp
  | succ k ih =>
    rw [List.replicate_succ, List.flatten_cons, List.count_append, ih]
    ring

theorem countP_rounds (p : Event → Bool) (k : Nat) :
    (List.replicate k netRound).flatten.countP p = k * netRound.countP p := by
  induction k with
  | zero => simp
  | succ k ih =>
    rw [List.replicate_succ, List.flatten_cons, List.countP_append, ih]
    ring

theorem connClose_not_mem_netEvents (env : NetEnv) (k : Nat) : ∀ j,
    Event.connClose ∉ netEvents env j k := by
  induction k with
  | zero => intro j; simp [netEvents]
  | succ k ih =>
    intro j
    have e : netEvents env j (k + 1)
        = netStep env j ++ [Event.sleep 200] ++ netEvents env (j + 1) k := rfl
    rw [e]
    simp [netStep, ih (j + 1)]

/-- C10: on a connection that was opened and whose reads succeed `k` times and
then fail, `networkHandler` returns (given fuel for `k + 1` iterations) and its
trace is: the start of the call with one write of the GET request; `k` rounds of
clock sample, read deadline 300 ms after it, successful read, 200 ms sleep; one
more clock sample, deadline and the failing read, with no sleep after it; then
the success line and the close.  So there are `k + 1` reads, each right after a
deadline call, and `k` sleeps of 200 ms. -/
theorem networkHandler_read_rounds (env : NetEnv) (fuel k : Nat) (l : List (List Nat))
    (hd : env.dialOk = true) (hmid : ∀ j, j < k → env.reads j = none)
    (hend : env.reads k ≠ none) (hfuel : k < fuel) :
    ∃ tr, (networkHandler env fuel (World.request l)).map World.trace = some tr
      ∧ tr = [Event.tagStart "handler" "network",
            Event.log "Handling slow network request...", Event.clockNow,
            Event.dial "tcp" "example.org:80" 5000 true,
            Event.connWrite netRequest env.writeOk, Event.alloc 4096]
          ++ (List.replicate k [Event.clockNow, Event.setReadDeadline 300,
                Event.connRead 4096 none, Event.sleep 200]).flatten
          ++ [Event.clockNow, Event.setReadDeadline 300, Event.connRead 4096 (env.reads k),
              Event.clockNow, Event.respWrite (netLine env.elapsed), Event.connClose,
              Event.tagEnd]
      ∧ tr.count (Event.connWrite netRequest env.writeOk) = 1
      ∧ tr.countP Event.isConnRead = k + 1
      ∧ tr.count (Event.setReadDeadline 300) = k + 1
      ∧ tr.count (Event.sleep 200) = k := by
  have hrounds := netEvents_rounds env k 0 (fun j1 _ h2 => hmid j1 (by omega))
  have htr : (networkHandler env fuel (World.request l)).map World.trace
      = some (netStart env ++ (List.replicate k netRound).flatten
          ++ [Event.clockNow, Event.setReadDeadline 300, Event.connRead 4096 (env.reads k),
              Event.clockNow, Event.respWrite (netLine env.elapsed), Event.connClose,
              Event.tagEnd]) := by
    rw [networkHandler_done env fuel _ hd k hfuel hmid hend, hrounds]
    simp only [Option.map_some', World.emitAll_trace, World.fprint_trace, World.request,
      List.nil_append, List.append_assoc, netStep]
    rfl
  refine ⟨_, htr, rfl, ?_, ?_, ?_, ?_⟩
  · rw [List.count_append, List.count_append, count_rounds]
    simp [netStart, netRound]
  · rw [List.countP_append, List.countP_append, countP_rounds]
    simp [netStart, netRound, Event.isConnRead, List.countP_cons]
  · rw [List.count_append, List.count_append, count_rounds]
    simp [netStart, netRound]
  · rw [List.count_append, List.count_append, count_rounds]
    simp [netStart, netRound]

/-- Instance of C10: two reads succeed, the third times out. -/
theorem networkHandler_read_rounds_witness :
    ∃ tr, (networkHandler slowNet 3 (World.request [])).map World.trace = some tr
      ∧ tr = [Event.tagStart "handler" "network",
            Event.log "Handling slow network request...", Event.clockNow,
            Event.dial "tcp" "example.org:80" 5000 true,
            Event.connWrite netRequest slowNet.writeOk, Event.alloc 4096]
          ++ (List.replicate 2 [Event.clockNow, Event.setReadDeadline 300,
                Event.connRead 4096 none, Event.sleep 200]).flatten
          ++ [Event.clockNow, Event.setReadDeadline 300,
              Event.connRead 4096 (slowNet.reads 2),
              Event.clockNow, Event.respWrite (netLine slowNet.elapsed), Event.connClose,
              Event.tagEnd]
      ∧ tr.count (Event.connWrite netRequest slowNet.writeOk) = 1
      ∧ tr.countP Event.isConnRead = 2 + 1
      ∧ tr.count (Event.setReadDeadline 300) = 2 + 1
      ∧ tr.count (Event.sleep 200) = 2 :=
  networkHandler_read_rounds slowNet 3 2 [] rfl (by decide) (by decide) (by decide)

/-- C4: a call of `networkHandler` that returns answers with status 500 exactly
when the dial failed; after a failed dial the handler only sends the error
response: no request is written, nothing is read and no success line is
emitted.  When the dial succeeded, then whether or not the request write
succeeded and whatever error ends the reads, the handler answers with status 200
and the line `Network call to example.org finished in <duration>`, and closes
the connection once, after that line and before it returns. -/
theorem networkHandler_failure_cases (env : NetEnv) (fuel : Nat) (l : List (List Nat)) :
    (∀ w1, networkHandler env fuel (World.request l) = some w1 →
      (w1.resp.status = some 500 ↔ env.dialOk = false))
    ∧ (env.dialOk = false →
        (networkHandler env fuel (World.request l)).map World.view
          = some ([Event.tagStart "handler" "network",
              Event.log "Handling slow network request...", Event.clockNow,
              Event.dial "tcp" "example.org:80" 5000 false,
              Event.httpError "Network dial error" 500, Event.tagEnd],
            ⟨some 500, "Network dial error\n"⟩))
    ∧ (env.dialOk = true → ∀ k, k < fuel → (∀ j, j < k → env.reads j = none) →
        env.reads k ≠ none →
        ∃ pre, Event.connClose ∉ pre
          ∧ (networkHandler env fuel (World.request l)).map World.view
            = some (pre ++ [Event.respWrite
                  ("Network call to example.org finished in " ++ env.elapsed ++ "\n"),
                Event.connClose, Event.tagEnd],
              ⟨some 200, "Network call to example.org finished in " ++ env.elapsed
                ++ "\n"⟩)) := by
  refine ⟨?_, ?_, ?_⟩
  · intro w1 hrun
    rcases networkHandler_cases env fuel (World.request l) with
      ⟨hd, h1⟩ | ⟨hd, _, _, _, _, h1⟩ | ⟨_, _, h1⟩
    · rw [h1] at hrun
      cases hrun
      simp only [World.emitAll_resp, World.httpError_resp, error_line, hd]
    · rw [h1] at hrun
      cases hrun
      simp only [World.emitAll_resp, World.fprint_resp, World.request,
        ResponseWriter.fresh_write, hd]
      constructor
      · intro h
        cases h
      · intro h
        cases h
    · rw [h1] at hrun
      cases hrun
  · intro hd
    rw [networkHandler_dial_fail env fuel _ hd]
    simp only [Option.map_some', World.view, World.emitAll_trace, World.httpError_trace,
      World.emitAll_resp, World.httpError_resp, error_line, World.request, List.nil_append]
    rfl
  · intro hd k hk hmid hend
    refine ⟨netStart env ++ netEvents env 0 k ++ netStep env k ++ [Event.clockNow], ?_, ?_⟩
    · simp [netStart, netStep, connClose_not_mem_netEvents env k 0]
    · rw [networkHandler_done env fuel _ hd k hk hmid hend]
      simp only [Option.map_some', World.view, World.emitAll_trace, World.fprint_trace,
        World.emitAll_resp, World.fprint_resp, World.request, ResponseWriter.fresh_write,
        List.nil_append, List.append_assoc]
      rfl

/-- Instance of C4: the request write fails, two reads succeed, the third times
out. -/
theorem networkHandler_failure_cases_witness :
    ∃ pre, Event.connClose ∉ pre
      ∧ (networkHandler slowNet 3 (World.request [])).map World.view
        = some (pre ++ [Event.respWrite
              ("Network call to example.org finished in " ++ slowNet.elapsed ++ "\n"),
            Event.connClose, Event.tagEnd],
          ⟨some 200, "Network call to example.org finished in " ++ slowNet.elapsed
            ++ "\n"⟩) :=
  (networkHandler_failure_cases slowNet 3 []).2.2 rfl 2 (by decide) (by decide) (by decide)

/-! ## Claims about overlapping calls of the memory handler -/

theorem Shared.step_twice (s : Shared) (t : Nat) (b : List Nat)
    (h : s.calls[t]? = some (CallState.ready b)) :
    (s.step t).step t = ⟨s.memleak ++ [b], s.calls.set t CallState.done⟩ := by
  have hlt : t < s.calls.length := by
    obtain ⟨hlt, _⟩ := List.getElem?_eq_some.mp h
    exact hlt
  have h1 : s.step t = ⟨s.memleak, s.calls.set t (CallState.loaded s.memleak b)⟩ := by
    simp only [Shared.step, h]
  have h2 : (s.calls.set t (CallState.loaded s.memleak b))[t]?
      = some (CallState.loaded s.memleak b) := List.getElem?_set_self hlt
  rw [h1]
  simp only [Shared.step, h2, List.set_set]

theorem countP_set_done (calls : List CallState) (t : Nat) (b : List Nat)
    (h : calls[t]? = some (CallState.ready b)) :
    (calls.set t CallState.done).countP CallState.isDone
      = calls.countP CallState.isDone + 1 := by
  obtain ⟨hlt, hget⟩ := List.getElem?_eq_some.mp h
  rw [List.countP_set _ _ _ _ hlt, hget]
  simp [CallState.isDone]

theorem Shared.run_serial (b : List Nat) (ts : List Nat) : ∀ s : Shared,
    ts.Nodup → (∀ t, t ∈ ts → s.calls[t]? = some (CallState.ready b)) →
    (s.run (serialSchedule ts)).memleak = s.memleak ++ List.replicate ts.length b
      ∧ (s.run (serialSchedule ts)).completed = s.completed + ts.length := by
  induction ts with
  | nil =>
    intro s _ _
    simp [serialSchedule, Shared.run]
  | cons t ts ih =>
    intro s hnd hready
    rw [List.nodup_cons] at hnd
    have ht := hready t (List.mem_cons_self t ts)
    have hrun : s.run (serialSchedule (t :: ts))
        = Shared.run ⟨s.memleak ++ [b], s.calls.set t CallState.done⟩ (serialSchedule ts) := by
      simp only [serialSchedule, Shared.run, List.flatMap_cons, List.cons_append,
        List.nil_append, List.foldl_cons]
      rw [Shared.step_twice s t b ht]
    have hrest : ∀ t1, t1 ∈ ts →
        (s.calls.set t CallState.done)[t1]? = some (CallState.ready b) := by
      intro t1 h1
      have hne : t ≠ t1 := fun e => hnd.1 (e ▸ h1)
      rw [List.getElem?_set_ne hne]
      exact hready t1 (List.mem_cons_of_mem t h1)
    obtain ⟨hm, hc⟩ := ih ⟨s.memleak ++ [b], s.calls.set t CallState.done⟩ hnd.2 hrest
    rw [hrun, hm, hc]
    constructor
    · simp only [List.length_cons, List.replicate_succ, List.append_assoc,
        List.singleton_append]
    · simp only [Shared.completed, countP_set_done s.calls t b ht, List.length_cons]
      omega

/-- C8, the code at the failing input: two calls of `memoryHandler` on the
empty retention list, interleaved as read by call 0, read by call 1, assignment
by call 0, assignment by call 1.  Both calls complete, and the list ends up with
one buffer where the claim, and the comments of `memoryHandler` (the buffer is
not released; the reference is kept, no GC), ask for two: the later assignment
overwrites the earlier one. -/
theorem overlapping_calls_lose_buffer :
    ((Shared.start [] 2).run [0, 1, 0, 1]).completed = 2
    ∧ ((Shared.start [] 2).run [0, 1, 0, 1]).memleak.length = 1 := by
  decide

/-- Calls of `memoryHandler` that do not overlap keep every buffer: when each
call reads and assigns `memleak` before the next one starts, in any order, the
retention list grows by one buffer per completed call; and one such call has the
effect on the list that `memoryHandler` has. -/
theorem serial_calls_keep_every_buffer (l : List (List Nat)) (n : Nat) (ts : List Nat)
    (hnd : ts.Nodup) (hlt : ∀ t, t ∈ ts → t < n) :
    ((Shared.start l n).run (serialSchedule ts)).memleak
        = l ++ List.replicate ts.length (makeBytes (100 * 1024 * 1024))
    ∧ ((Shared.start l n).run (serialSchedule ts)).completed = ts.length
    ∧ ((Shared.start l n).run (serialSchedule ts)).memleak.length
        = l.length + ((Shared.start l n).run (serialSchedule ts)).completed
    ∧ (memoryHandler (World.request l)).map World.memleak
        = some (((Shared.start l 1).run (serialSchedule [0])).memleak) := by
  have hready : ∀ (m : Nat) (t : Nat), t < m →
      (Shared.start l m).calls[t]? = some (CallState.ready (makeBytes (100 * 1024 * 1024))) := by
    intro m t ht
    simp only [Shared.start, List.getElem?_replicate, ht, if_true]
  have hzero : (Shared.start l n).completed = 0 := by
    simp only [Shared.completed, Shared.start, List.countP_replicate, CallState.isDone]
    rfl
  obtain ⟨hm, hc⟩ := Shared.run_serial (makeBytes (100 * 1024 * 1024)) ts (Shared.start l n) hnd
    (fun t ht => hready n t (hlt t ht))
  have hm1 := (Shared.run_serial (makeBytes (100 * 1024 * 1024)) [0] (Shared.start l 1)
    (List.nodup_singleton 0) (fun t ht => hready 1 t (by
      rw [List.mem_singleton] at ht
      omega))).1
  rw [hzero, Nat.zero_add] at hc
  refine ⟨hm, hc, ?_, ?_⟩
  · rw [hm, hc, List.length_append, List.length_replicate]
    rfl
  · rw [hm1, memoryHandler_memleak, makeBytes, buffer_size]
    rfl

end PyroDemo
